import Mathlib

/-!
Verification of the trading-agent orchestration core
(`hooks/useTradingBot.ts`) against its specification.

The TypeScript source is shallowly embedded below.  JavaScript numbers are
modelled as rationals (`ℚ`), timestamps as naturals (`ℕ`, milliseconds),
JS object maps as association lists, and JS truthiness of optional fields
is modelled explicitly (`none` and `some 0` are falsy for numbers, the
empty string is falsy for strings).  External calls (`setLeverage`,
`placeRealOrder`) are modelled by an outcome oracle so that every possible
success/failure interleaving is quantified over.
-/

namespace TradingBot

/-- Constant `MINIMUM_TRADE_SIZE_USD = 50` from `useTradingBot.ts`. -/
def MINIMUM_TRADE_SIZE_USD : ℚ := 50

/-- Constant `SYMBOL_COOLDOWN_MS = 30 * 60 * 1000` from `useTradingBot.ts`. -/
def SYMBOL_COOLDOWN_MS : ℕ := 30 * 60 * 1000

/-- `AiAction` enum from `types.ts` as used by the hook. -/
inductive AiAction where
  | LONG
  | SHORT
  | CLOSE
  | HOLD
deriving BEq, DecidableEq, Repr

/-- `OrderType` enum (side of an open position). -/
inductive OrderType where
  | LONG
  | SHORT
deriving BEq, DecidableEq, Repr

/-- A market snapshot entry (`Market`): symbol and latest price. -/
structure Market where
  symbol : String
  price : ℚ
deriving BEq, DecidableEq, Repr

/-- An open position (`Position`), with the fields the hook reads. -/
structure Position where
  id : String
  symbol : String
  type : OrderType
  entryPrice : ℚ
  size : ℚ
  leverage : ℚ
  pnl : ℚ
deriving BEq, DecidableEq, Repr

/-- A closed/open trade record (`Order`); the hook only reads `pnl`. -/
structure Order where
  id : String
  symbol : String
  pnl : ℚ
deriving BEq, DecidableEq, Repr

/-- `Portfolio`: balance, unrealized pnl, total value, open positions. -/
structure Portfolio where
  balance : ℚ
  pnl : ℚ
  totalValue : ℚ
  positions : List Position
deriving BEq, DecidableEq, Repr

/-- A proposed decision (`AiDecision`).  `size`, `leverage`, `stopLoss`,
`takeProfit` and `closePositionId` are optional in the JSON payload parsed
from the model; the source guards each with JS truthiness. -/
structure AiDecision where
  action : AiAction
  symbol : String
  size : Option ℚ
  leverage : Option ℚ
  stopLoss : Option ℚ
  takeProfit : Option ℚ
  closePositionId : Option String
deriving BEq, DecidableEq, Repr

/-- A point of the value-history time series (`ValueHistoryPoint`). -/
structure ValueHistoryPoint where
  timestamp : ℕ
  value : ℚ
deriving BEq, DecidableEq, Repr

/-- Protective-order kind used for note bookkeeping. -/
inductive ProtectiveKind where
  | stopLoss
  | takeProfit
deriving BEq, DecidableEq, Repr

/-- Outcome notes pushed onto the `notes` array during a turn, one
constructor per distinct push site, carrying the dynamic data the
formatted string interpolates. -/
inductive Note where
  | rejectedMinSize (action : AiAction) (symbol : String) (size : ℚ)
  | rejectedCooldown (action : AiAction) (symbol : String) (remainingMs : ℕ)
  | leverageAdjusted (symbol : String) (fromLev toLev : ℚ)
  | rejectedLowBalance (action : AiAction) (symbol : String) (availableBalance : ℚ)
  | sizeAdjusted (symbol : String) (fromSize toSize : ℚ)
  | rejectedAdjustedSize (action : AiAction) (symbol : String) (adjustedSize : ℚ)
  | quantityZeroWarning (symbol : String)
  | openSuccess (action : AiAction) (symbol : String)
  | protectiveSuccess (kind : ProtectiveKind) (symbol : String)
  | protectiveError (kind : ProtectiveKind) (symbol : String)
  | closeSuccess (symbol : String)
  | closeAlreadyGone (closePositionId : String)
  | executionError
deriving BEq, DecidableEq, Repr

/-- A turn-log entry (`BotLog`). -/
structure BotLog where
  timestamp : ℕ
  decisions : List AiDecision
  prompt : String
  notes : List Note
deriving BEq, DecidableEq, Repr

/-- The per-agent state the hook keeps (`BotState`), restricted to the
fields the orchestration core reads and writes. -/
structure BotState where
  id : String
  isPaused : Bool
  portfolio : Portfolio
  orders : List Order
  botLogs : List BotLog
  valueHistory : List ValueHistoryPoint
  realizedPnl : ℚ
  symbolCooldowns : List (String × ℕ)
deriving BEq, DecidableEq, Repr

/-! ## Validation pipeline (`runTradingTurn`, lines 305-332) -/

/-- An action is directional when it is `LONG` or `SHORT`. -/
def isDirectional (a : AiAction) : Bool :=
  a == AiAction.LONG || a == AiAction.SHORT

/-- JS truthiness of an optional numeric field: `undefined` and `0` are
falsy. -/
def sizeTruthy (s : Option ℚ) : Bool :=
  match s with
  | some v => v != 0
  | none => false

/-- Numeric value of an optional size (only read under a truthiness
guard in the source). -/
def sizeVal (s : Option ℚ) : ℚ := s.getD 0

/-- `decision.leverage || 1`: missing or zero leverage defaults to 1. -/
def rawLeverage (d : AiDecision) : ℚ :=
  match d.leverage with
  | some l => if l == 0 then 1 else l
  | none => 1

/-- `leverageLimits.get(symbol) ?? 25`: venue maximum leverage with
default 25 for an unknown symbol.  The `leverageLimits` table itself is
imported data, so the pipeline is parametric in it. -/
def maxLeverageFor (limits : List (String × ℚ)) (symbol : String) : ℚ :=
  (limits.lookup symbol).getD 25

/-- The guard of the minimum-size check (line 307):
`(LONG || SHORT) && decision.size && decision.size < MINIMUM_TRADE_SIZE_USD`. -/
def minSizeRejected (d : AiDecision) : Bool :=
  isDirectional d.action && sizeTruthy d.size &&
    decide (sizeVal d.size < MINIMUM_TRADE_SIZE_USD)

/-- The guard of the cooldown check (lines 313-315):
`(LONG || SHORT) && decision.symbol` and then
`cooldownEndTime && Date.now() < cooldownEndTime`. -/
def cooldownRejected (cooldowns : List (String × ℕ)) (now : ℕ)
    (d : AiDecision) : Bool :=
  isDirectional d.action && (d.symbol != "") &&
    (match cooldowns.lookup d.symbol with
     | some t => t != 0 && decide (now < t)
     | none => false)

/-- Effective leverage after the clamp stage (lines 322-330). -/
def adjustedLeverage (limits : List (String × ℚ)) (d : AiDecision) : ℚ :=
  if isDirectional d.action && (d.symbol != "") then
    let maxLev := maxLeverageFor limits d.symbol
    if rawLeverage d > maxLev then maxLev else rawLeverage d
  else rawLeverage d

/-- Result of validating one decision: either rejected with the rejection
note, or accepted with its effective leverage and adjustment notes. -/
inductive ValidationResult where
  | rejected (note : Note)
  | accepted (adjustedLeverage : ℚ) (notes : List Note)
deriving BEq, DecidableEq, Repr

/-- Validation of one decision, mirroring the `decisions.forEach` body
(lines 305-332): minimum size, then cooldown, then leverage clamp. -/
def validateOne (limits : List (String × ℚ)) (cooldowns : List (String × ℕ))
    (now : ℕ) (d : AiDecision) : ValidationResult :=
  if minSizeRejected d then
    ValidationResult.rejected (Note.rejectedMinSize d.action d.symbol (sizeVal d.size))
  else if cooldownRejected cooldowns now d then
    ValidationResult.rejected
      (Note.rejectedCooldown d.action d.symbol ((cooldowns.lookup d.symbol).getD 0 - now))
  else if isDirectional d.action && (d.symbol != "") &&
      decide (rawLeverage d > maxLeverageFor limits d.symbol) then
    ValidationResult.accepted (maxLeverageFor limits d.symbol)
      [Note.leverageAdjusted d.symbol (rawLeverage d) (maxLeverageFor limits d.symbol)]
  else
    ValidationResult.accepted (rawLeverage d) []

/-- One step of the `forEach`: a rejected decision contributes its note;
an accepted one contributes its notes and is appended to the survivor
list paired with its effective leverage. -/
def validateStep (limits : List (String × ℚ)) (cooldowns : List (String × ℕ))
    (now : ℕ) (acc : List (AiDecision × ℚ) × List Note) (d : AiDecision) :
    List (AiDecision × ℚ) × List Note :=
  match validateOne limits cooldowns now d with
  | ValidationResult.rejected n => (acc.1, acc.2 ++ [n])
  | ValidationResult.accepted lev ns => (acc.1 ++ [(d, lev)], acc.2 ++ ns)

/-- The whole validation pass: survivors (in order, with effective
leverage) and the full note list, in original decision order. -/
def runValidation (limits : List (String × ℚ)) (cooldowns : List (String × ℕ))
    (now : ℕ) (decisions : List AiDecision) :
    List (AiDecision × ℚ) × List Note :=
  decisions.foldl (validateStep limits cooldowns now) ([], [])

/-- Survivor extraction for one decision, used to restate `runValidation`
in closed form. -/
def acceptedPair (limits : List (String × ℚ)) (cooldowns : List (String × ℕ))
    (now : ℕ) (d : AiDecision) : Option (AiDecision × ℚ) :=
  match validateOne limits cooldowns now d with
  | ValidationResult.rejected _ => none
  | ValidationResult.accepted lev _ => some (d, lev)

/-- Notes contributed by one decision. -/
def notesOf (limits : List (String × ℚ)) (cooldowns : List (String × ℕ))
    (now : ℕ) (d : AiDecision) : List Note :=
  match validateOne limits cooldowns now d with
  | ValidationResult.rejected n => [n]
  | ValidationResult.accepted _ ns => ns

theorem validateStep_closed (limits : List (String × ℚ))
    (cooldowns : List (String × ℕ)) (now : ℕ)
    (acc : List (AiDecision × ℚ) × List Note) (d : AiDecision) :
    validateStep limits cooldowns now acc d =
      (acc.1 ++ (acceptedPair limits cooldowns now d).toList,
       acc.2 ++ notesOf limits cooldowns now d) := by
  unfold validateStep acceptedPair notesOf
  cases validateOne limits cooldowns now d <;> simp

theorem runValidation_foldl_closed (limits : List (String × ℚ))
    (cooldowns : List (String × ℕ)) (now : ℕ) (decisions : List AiDecision)
    (acc : List (AiDecision × ℚ) × List Note) :
    decisions.foldl (validateStep limits cooldowns now) acc =
      (acc.1 ++ decisions.flatMap
          (fun d => (acceptedPair limits cooldowns now d).toList),
       acc.2 ++ decisions.flatMap (notesOf limits cooldowns now)) := by
  induction decisions generalizing acc with
  | nil => simp
  | cons d ds ih =>
      simp only [List.foldl_cons, List.flatMap_cons]
      rw [ih, validateStep_closed]
      simp

/-- Closed form of `runValidation`: survivors are the filter-map of
acceptance, notes the concatenation of per-decision notes, both in
original order. -/
theorem runValidation_closed (limits : List (String × ℚ))
    (cooldowns : List (String × ℕ)) (now : ℕ) (decisions : List AiDecision) :
    runValidation limits cooldowns now decisions =
      (decisions.flatMap (fun d => (acceptedPair limits cooldowns now d).toList),
       decisions.flatMap (notesOf limits cooldowns now)) := by
  unfold runValidation
  rw [runValidation_foldl_closed]
  simp

/-! ## Precision adapter (`getAdjustedQuantity`, lines 241-245) -/

/-- `SymbolPrecisionInfo` entry from the exchange metadata. -/
structure SymbolPrecisionInfo where
  quantityPrecision : ℕ
deriving BEq, DecidableEq, Repr

/-- `symbolPrecisions.get(symbol)?.quantityPrecision ?? 3`: the quantity
precision for a symbol, default 3 when unknown. -/
def quantityPrecisionFor (precisions : List (String × SymbolPrecisionInfo))
    (symbol : String) : ℕ :=
  ((precisions.lookup symbol).map SymbolPrecisionInfo.quantityPrecision).getD 3

/-- `getAdjustedQuantity`: look up the symbol's quantity precision
(default 3), scale by `10^precision`, floor, and scale back. -/
def getAdjustedQuantity (precisions : List (String × SymbolPrecisionInfo))
    (symbol : String) (rawQuantity : ℚ) : ℚ :=
  let precision := quantityPrecisionFor precisions symbol
  let factor : ℚ := 10 ^ precision
  ((rawQuantity * factor).floor : ℚ) / factor

/-! ## Live execution engine (`runTradingTurn`, lines 336-440) -/

/-- Outcome of one awaited venue call: fulfilled, or thrown with an error
whose message may or may not contain `ReduceOnly Order is rejected`
(the only message the catch block inspects). -/
inductive CallResult where
  | ok
  | err (reduceOnlyMsg : Bool)
deriving BEq, DecidableEq, Repr

/-- Oracle for the external calls one decision can make during live
execution. `slOk`/`tpOk` are the settle results of the protective legs
(`Promise.allSettled` never throws). -/
structure DecisionOutcome where
  setLev : CallResult
  openOrder : CallResult
  slOk : Bool
  tpOk : Bool
  closeOrder : CallResult
deriving BEq, DecidableEq, Repr

/-- Mutable state threaded through the live execution loop:
`updatedBotState.portfolio`, `updatedBotState.symbolCooldowns` and the
`notes` array. -/
structure ExecState where
  portfolio : Portfolio
  cooldowns : List (String × ℕ)
  notes : List Note
deriving BEq, DecidableEq, Repr

/-- JS object-key assignment on an association list: the new binding
shadows any previous binding for the key. -/
def setEntry {α : Type} (l : List (String × α)) (k : String) (v : α) :
    List (String × α) :=
  (k, v) :: l.filter (fun kv => kv.1 ≠ k)

/-- The catch block of the per-decision `try` (lines 432-438): a thrown
error whose message contains `ReduceOnly Order is rejected` yields the
benign already-gone note, every other error an execution-error note. -/
def catchNote (reduceOnlyMsg : Bool) (closePositionId : Option String) : Note :=
  if reduceOnlyMsg then Note.closeAlreadyGone (closePositionId.getD "")
  else Note.executionError

/-- JS truthiness of the optional `closePositionId` string. -/
def cpidTruthy (c : Option String) : Bool :=
  match c with
  | some s => s != ""
  | none => false

/-- The open path after the sizing stages (lines 363-410): set leverage,
compute and truncate the quantity, place the market order, then the
protective legs.  A throw from `setLeverage` or the opening order is
caught by the surrounding catch. -/
def openAfterSizing (precisions : List (String × SymbolPrecisionInfo))
    (d : AiDecision) (adjustedLeverage : ℚ) (oc : DecisionOutcome)
    (m : Market) (st : ExecState) (tradeSize : ℚ) : ExecState :=
  match oc.setLev with
  | CallResult.err ro => { st with notes := st.notes ++ [catchNote ro d.closePositionId] }
  | CallResult.ok =>
    let rawQuantity := (tradeSize * adjustedLeverage) / m.price
    let quantity := getAdjustedQuantity precisions d.symbol rawQuantity
    if quantity ≤ 0 then
      { st with notes := st.notes ++ [Note.quantityZeroWarning d.symbol] }
    else
      match oc.openOrder with
      | CallResult.err ro => { st with notes := st.notes ++ [catchNote ro d.closePositionId] }
      | CallResult.ok =>
        let slNotes :=
          if sizeTruthy d.stopLoss then
            [if oc.slOk then Note.protectiveSuccess ProtectiveKind.stopLoss d.symbol
             else Note.protectiveError ProtectiveKind.stopLoss d.symbol]
          else []
        let tpNotes :=
          if sizeTruthy d.takeProfit then
            [if oc.tpOk then Note.protectiveSuccess ProtectiveKind.takeProfit d.symbol
             else Note.protectiveError ProtectiveKind.takeProfit d.symbol]
          else []
        { st with notes := st.notes ++ [Note.openSuccess d.action d.symbol] ++ slNotes ++ tpNotes }

/-- The directional open branch (lines 340-410): the staged fail-soft
sizing policy (lines 342-361) followed by `openAfterSizing`. -/
def openBranch (precisions : List (String × SymbolPrecisionInfo))
    (d : AiDecision) (adjustedLeverage : ℚ) (oc : DecisionOutcome)
    (m : Market) (st : ExecState) : ExecState :=
  let availableBalance := st.portfolio.balance
  if availableBalance < MINIMUM_TRADE_SIZE_USD then
    { st with notes := st.notes ++
        [Note.rejectedLowBalance d.action d.symbol availableBalance] }
  else
    let tradeSize :=
      if sizeVal d.size > availableBalance then availableBalance else sizeVal d.size
    let adjNotes :=
      if sizeVal d.size > availableBalance then
        [Note.sizeAdjusted d.symbol (sizeVal d.size) availableBalance]
      else []
    if tradeSize < MINIMUM_TRADE_SIZE_USD then
      { st with notes := st.notes ++ adjNotes ++
          [Note.rejectedAdjustedSize d.action d.symbol tradeSize] }
    else
      openAfterSizing precisions d adjustedLeverage oc m
        { st with notes := st.notes ++ adjNotes } tradeSize

/-- The close branch (lines 412-431).  The target is resolved in
`bot.portfolio.positions` (the portfolio captured at the start of the
turn), not in the threaded state.  A missing position, falsy id, or zero
quantity is a silent no-op; a successful close sets the symbol cooldown
and notes success; a throw is handled by `catchNote`. -/
def closeBranch (now : ℕ) (precisions : List (String × SymbolPrecisionInfo))
    (origPortfolio : Portfolio) (cpid : String) (oc : DecisionOutcome)
    (st : ExecState) : ExecState :=
  match origPortfolio.positions.find? (fun p => p.id == cpid) with
  | none => st
  | some posToClose =>
    let rawQuantity := |(posToClose.size * posToClose.leverage) / posToClose.entryPrice|
    let quantity := getAdjustedQuantity precisions posToClose.symbol rawQuantity
    if quantity > 0 then
      match oc.closeOrder with
      | CallResult.ok =>
        { st with
            cooldowns := setEntry st.cooldowns posToClose.symbol (now + SYMBOL_COOLDOWN_MS),
            notes := st.notes ++ [Note.closeSuccess posToClose.symbol] }
      | CallResult.err ro =>
        { st with notes := st.notes ++ [catchNote ro (some cpid)] }
    else st

/-- The `else if` arm of the per-decision body: dispatch a CLOSE with a
truthy `closePositionId` to `closeBranch`, otherwise do nothing. -/
def closeStep (now : ℕ) (precisions : List (String × SymbolPrecisionInfo))
    (origPortfolio : Portfolio) (d : AiDecision) (oc : DecisionOutcome)
    (st : ExecState) : ExecState :=
  if d.action == AiAction.CLOSE && cpidTruthy d.closePositionId then
    closeBranch now precisions origPortfolio (d.closePositionId.getD "") oc st
  else st

/-- Execution of one validated decision in live mode (the body of the
`for` loop, lines 337-440): the open branch requires a directional
action, a found market, a truthy size and a truthy symbol; everything
else falls through to the CLOSE arm. -/
def liveExecuteOne (now : ℕ) (precisions : List (String × SymbolPrecisionInfo))
    (markets : List Market) (origPortfolio : Portfolio) (st : ExecState)
    (d : AiDecision) (adjustedLeverage : ℚ) (oc : DecisionOutcome) : ExecState :=
  match markets.find? (fun m => m.symbol == d.symbol) with
  | some m =>
    if isDirectional d.action && sizeTruthy d.size && (d.symbol != "") then
      openBranch precisions d adjustedLeverage oc m st
    else closeStep now precisions origPortfolio d oc st
  | none => closeStep now precisions origPortfolio d oc st

/-- The whole live execution loop over the validated decisions, each
paired with its venue-call outcomes. -/
def liveExecuteTurn (now : ℕ) (precisions : List (String × SymbolPrecisionInfo))
    (markets : List Market) (origPortfolio : Portfolio) (st : ExecState)
    (vds : List ((AiDecision × ℚ) × DecisionOutcome)) : ExecState :=
  vds.foldl
    (fun s p => liveExecuteOne now precisions markets origPortfolio s p.1.1 p.1.2 p.2) st

/-! ## Bounded buffers (lines 287-288 and 445-446) -/

/-- `[newLog, ...botLogs].slice(0, 50)`: prepend the turn's log entry and
keep the first 50 (the log list is newest-first). -/
def appendBotLog (logs : List BotLog) (l : BotLog) : List BotLog :=
  (l :: logs).take 50

/-- `[...valueHistory, newPoint].slice(-300)`: append the new point and
keep the last 300 (the history is oldest-first). -/
def appendValueHistory (h : List ValueHistoryPoint) (pt : ValueHistoryPoint) :
    List ValueHistoryPoint :=
  (h ++ [pt]).drop ((h.length + 1) - 300)

/-- One full live decision turn for one agent (`runTradingTurn` body for
a real-mode bot): validate, execute with the given outcome oracle, then
append exactly one turn-log entry. -/
def runLiveTurn (limits : List (String × ℚ))
    (precisions : List (String × SymbolPrecisionInfo)) (markets : List Market)
    (now : ℕ) (bot : BotState) (prompt : String) (decisions : List AiDecision)
    (ocs : List DecisionOutcome) : BotState :=
  let v := runValidation limits bot.symbolCooldowns now decisions
  let st0 : ExecState :=
    { portfolio := bot.portfolio, cooldowns := bot.symbolCooldowns, notes := v.2 }
  let stF := liveExecuteTurn now precisions markets bot.portfolio st0 (v.1.zip ocs)
  let newLog : BotLog :=
    { timestamp := now, decisions := decisions, prompt := prompt, notes := stF.notes }
  { bot with
      portfolio := stF.portfolio,
      symbolCooldowns := stF.cooldowns,
      botLogs := appendBotLog bot.botLogs newLog }

/-! ## Reconciliation (`updatePortfolios`, lines 248-292) -/

/-- Unrealized PnL of one position from the latest snapshot (lines
275-277): a symbol absent from the snapshot falls back to the entry
price. -/
def positionPnl (marketData : List Market) (pos : Position) : ℚ :=
  let currentPrice :=
    ((marketData.find? (fun m => m.symbol == pos.symbol)).map Market.price).getD pos.entryPrice
  let assetQuantity := (pos.size * pos.leverage) / pos.entryPrice
  (currentPrice - pos.entryPrice) * assetQuantity *
    (if pos.type == OrderType.LONG then 1 else -1)

/-- The single pass over `portfolio.positions` (lines 274-281),
accumulating the updated positions, the unrealized PnL sum and the total
margin in use, exactly as the source's `map` with closed-over
accumulators does. -/
def refreshPositions (marketData : List Market) (positions : List Position) :
    List Position × ℚ × ℚ :=
  positions.foldl
    (fun acc pos =>
      let pnl := positionPnl marketData pos
      (acc.1 ++ [{ pos with pnl := pnl }], acc.2.1 + pnl, acc.2.2 + pos.size))
    ([], 0, 0)

/-- Paper-mode portfolio refresh (lines 270-283). -/
def refreshPaper (marketData : List Market) (p : Portfolio) : Portfolio :=
  let r := refreshPositions marketData p.positions
  { p with
      pnl := r.2.1,
      totalValue := p.balance + r.2.2 + r.2.1,
      positions := r.1 }

/-- One refresh tick for a paper bot (lines 270-289): recompute the
portfolio and append the new total value to the bounded history. -/
def updatePaperBot (marketData : List Market) (now : ℕ) (bot : BotState) :
    BotState :=
  let updatedPortfolio := refreshPaper marketData bot.portfolio
  { bot with
      portfolio := updatedPortfolio,
      valueHistory := appendValueHistory bot.valueHistory
        { timestamp := now, value := updatedPortfolio.totalValue } }

/-- One refresh tick for a live bot (lines 258-289): replace portfolio
and order history wholesale with the venue snapshot, recompute realized
PnL from the fetched history, append the new total value. -/
def updateLiveBot (venuePortfolio : Portfolio) (venueOrders : List Order)
    (now : ℕ) (bot : BotState) : BotState :=
  { bot with
      portfolio := venuePortfolio,
      orders := venueOrders,
      realizedPnl := (venueOrders.map Order.pnl).sum,
      valueHistory := appendValueHistory bot.valueHistory
        { timestamp := now, value := venuePortfolio.totalValue } }

/-! ## Initial-balance capture (`initialBalanceRef`) -/

/-- The initial sync of `initialize` (lines 184-226): both the success
path (line 205) and the failure path (line 220) record the hardcoded
live initial balance for the bot.  `liveInit` stands for the imported
constant `LIVE_BOT_INITIAL_BALANCE` (its module is not part of the
embedded source). -/
def initialSyncRef (ref : List (String × ℚ)) (botId : String) (liveInit : ℚ) :
    List (String × ℚ) :=
  setEntry ref botId liveInit

/-- The `initialBalanceRef` update of a live refresh tick (lines
265-269): set the figure only when no entry exists yet.  The venue
balance fetched by the same tick (`venueBalance`) is never consulted. -/
def refreshSyncRef (liveInit : ℚ) (venueBalance : ℚ)
    (ref : List (String × ℚ)) (botId : String) : List (String × ℚ) :=
  if (ref.lookup botId).isSome then ref
  else setEntry ref botId liveInit

/-! ## Helper predicates on validation results -/

/-- Whether a validation result is a rejection. -/
def isRejectedRes : ValidationResult → Bool
  | ValidationResult.rejected _ => true
  | ValidationResult.accepted _ _ => false

/-- Whether a validation result is a minimum-size rejection. -/
def isMinSizeRejection : ValidationResult → Bool
  | ValidationResult.rejected (Note.rejectedMinSize _ _ _) => true
  | _ => false

/-- Whether a validation result is a cooldown rejection. -/
def isCooldownRejection : ValidationResult → Bool
  | ValidationResult.rejected (Note.rejectedCooldown _ _ _) => true
  | _ => false

/-- A minimum-size rejection can only come out of `validateOne` when the
minimum-size guard itself fired. -/
theorem isMinSizeRejection_imp {limits : List (String × ℚ)}
    {cooldowns : List (String × ℕ)} {now : ℕ} {d : AiDecision}
    (h : isMinSizeRejection (validateOne limits cooldowns now d) = true) :
    minSizeRejected d = true := by
  by_contra hm
  rw [Bool.not_eq_true] at hm
  unfold validateOne at h
  rw [hm] at h
  simp only [Bool.false_eq_true, if_false] at h
  split at h
  · exact Bool.noConfusion (show false = true from h)
  · split at h
    · exact Bool.noConfusion (show false = true from h)
    · exact Bool.noConfusion (show false = true from h)

theorem minSizeRejected_true {d : AiDecision} {s : ℚ}
    (hdir : isDirectional d.action = true) (hsz : d.size = some s)
    (hne : s ≠ 0) (hlt : s < MINIMUM_TRADE_SIZE_USD) :
    minSizeRejected d = true := by
  simp [minSizeRejected, hdir, hsz, sizeTruthy, sizeVal, hne, hlt]

theorem sizeVal_some {d : AiDecision} {s : ℚ} (hsz : d.size = some s) :
    sizeVal d.size = s := by
  simp [sizeVal, hsz]

/-! ## Claim C2 -/

/-- Claim C2, as stated, is false on the code: the minimum-size check is
guarded by JS truthiness of `decision.size`, so a directional decision
whose size is `0` — which is below the configured minimum of 50 — is not
rejected by validation: it survives into the validated list with no note
and is handed to the execution engine. -/
theorem C2_counterexample :
    let d : AiDecision :=
      { action := AiAction.LONG, symbol := "BTCUSDT", size := some 0,
        leverage := some 10, stopLoss := none, takeProfit := none,
        closePositionId := none }
    isDirectional d.action = true ∧
    sizeVal d.size < MINIMUM_TRADE_SIZE_USD ∧
    validateOne [] [] 0 d = ValidationResult.accepted 10 [] ∧
    runValidation [] [] 0 [d] = ([(d, 10)], []) := by
  refine ⟨rfl, by norm_num [sizeVal, MINIMUM_TRADE_SIZE_USD], ?_, ?_⟩ <;> rfl

/-- Claim C2 amended: every directional decision whose size is present,
nonzero and below the configured minimum is rejected by validation with
a minimum-size note, never survives into the validated list handed to
the execution engine, and its rejection note is recorded; directional
decisions with a missing or zero size pass this check unrejected, and
non-directional (CLOSE) decisions bypass it. -/
theorem C2_min_size_validation :
    (∀ (limits : List (String × ℚ)) (cooldowns : List (String × ℕ)) (now : ℕ)
        (d : AiDecision) (s : ℚ),
      isDirectional d.action = true → d.size = some s → s ≠ 0 →
      s < MINIMUM_TRADE_SIZE_USD →
      validateOne limits cooldowns now d =
        ValidationResult.rejected (Note.rejectedMinSize d.action d.symbol s) ∧
      (∀ ds lev, (d, lev) ∉ (runValidation limits cooldowns now ds).1) ∧
      (∀ ds, d ∈ ds →
        Note.rejectedMinSize d.action d.symbol s ∈
          (runValidation limits cooldowns now ds).2)) ∧
    (∀ (limits : List (String × ℚ)) (cooldowns : List (String × ℕ)) (now : ℕ)
        (d : AiDecision),
      d.action = AiAction.CLOSE →
      isMinSizeRejection (validateOne limits cooldowns now d) = false) ∧
    (∀ (limits : List (String × ℚ)) (cooldowns : List (String × ℕ)) (now : ℕ)
        (d : AiDecision),
      sizeTruthy d.size = false →
      isMinSizeRejection (validateOne limits cooldowns now d) = false) := by
  refine ⟨?_, ?_, ?_⟩
  · intro limits cooldowns now d s hdir hsz hne hlt
    have hmin : minSizeRejected d = true := minSizeRejected_true hdir hsz hne hlt
    have hval : validateOne limits cooldowns now d =
        ValidationResult.rejected (Note.rejectedMinSize d.action d.symbol s) := by
      simp [validateOne, hmin, sizeVal_some hsz]
    refine ⟨hval, ?_, ?_⟩
    · intro ds lev hmem
      rw [runValidation_closed] at hmem
      simp only [List.mem_flatMap] at hmem
      obtain ⟨d', _, hmem'⟩ := hmem
      unfold acceptedPair at hmem'
      cases hv : validateOne limits cooldowns now d' with
      | rejected n =>
          rw [hv] at hmem'
          simp at hmem'
      | accepted lev' ns =>
          rw [hv] at hmem'
          simp at hmem'
          rw [hmem'.1] at hval
          rw [hval] at hv
          exact ValidationResult.noConfusion hv
    · intro ds hmem
      rw [runValidation_closed]
      simp only [List.mem_flatMap]
      refine ⟨d, hmem, ?_⟩
      unfold notesOf
      rw [hval]
      simp
  · intro limits cooldowns now d hclose
    by_contra hne
    rw [Bool.not_eq_false] at hne
    have hmin := isMinSizeRejection_imp hne
    rw [minSizeRejected, hclose] at hmin
    simp [isDirectional] at hmin
    rcases hmin with ⟨⟨h | h, -⟩, -⟩ <;>
      exact Bool.noConfusion (show false = true from h)
  · intro limits cooldowns now d hfalse
    by_contra hne
    rw [Bool.not_eq_false] at hne
    have hmin := isMinSizeRejection_imp hne
    rw [minSizeRejected, hfalse] at hmin
    simp at hmin

/-- Evaluation of the amended claim C2 at a concrete input: a LONG
decision of size 30 on BTCUSDT is rejected with the minimum-size note
and does not survive validation. -/
theorem C2_min_size_validation_witness :
    validateOne [] [] 0
      { action := AiAction.LONG, symbol := "BTCUSDT", size := some 30,
        leverage := some 10, stopLoss := none, takeProfit := none,
        closePositionId := none } =
      ValidationResult.rejected
        (Note.rejectedMinSize AiAction.LONG "BTCUSDT" 30) :=
  (C2_min_size_validation.1 [] [] 0
      { action := AiAction.LONG, symbol := "BTCUSDT", size := some 30,
        leverage := some 10, stopLoss := none, takeProfit := none,
        closePositionId := none } 30 rfl rfl (by norm_num)
      (by norm_num [MINIMUM_TRADE_SIZE_USD])).1

/-! ## Claim C3 -/

/-- A cooldown rejection can only come out of `validateOne` when the
cooldown guard itself fired. -/
theorem isCooldownRejection_imp {limits : List (String × ℚ)}
    {cooldowns : List (String × ℕ)} {now : ℕ} {d : AiDecision}
    (h : isCooldownRejection (validateOne limits cooldowns now d) = true) :
    cooldownRejected cooldowns now d = true := by
  by_contra hc
  rw [Bool.not_eq_true] at hc
  unfold validateOne at h
  rw [hc] at h
  simp only [Bool.false_eq_true, if_false] at h
  split at h
  · exact Bool.noConfusion (show false = true from h)
  · split at h
    · exact Bool.noConfusion (show false = true from h)
    · exact Bool.noConfusion (show false = true from h)

/-- Claim C3: a directional decision on a symbol whose cooldown entry has
not yet expired (now strictly before the stored expiry) is rejected by
validation; when it passes the earlier minimum-size check the rejection
note states the remaining time.  A decision on a symbol with no entry or
an expired entry is never rejected by the cooldown check. -/
theorem C3_cooldown_validation :
    ∀ (limits : List (String × ℚ)) (cooldowns : List (String × ℕ)) (now : ℕ)
      (d : AiDecision),
      isDirectional d.action = true → d.symbol ≠ "" →
      (∀ t, cooldowns.lookup d.symbol = some t → now < t →
        isRejectedRes (validateOne limits cooldowns now d) = true ∧
        (minSizeRejected d = false →
          validateOne limits cooldowns now d =
            ValidationResult.rejected
              (Note.rejectedCooldown d.action d.symbol (t - now)))) ∧
      ((∀ t, cooldowns.lookup d.symbol = some t → t ≤ now) →
        isCooldownRejection (validateOne limits cooldowns now d) = false) := by
  intro limits cooldowns now d hdir hsym
  constructor
  · intro t ht hnow
    have ht0 : t ≠ 0 := by omega
    have hcool : cooldownRejected cooldowns now d = true := by
      simp [cooldownRejected, hdir, hsym, ht, ht0, hnow]
    constructor
    · by_cases hm : minSizeRejected d = true
      · simp [validateOne, hm, isRejectedRes]
      · rw [Bool.not_eq_true] at hm
        simp [validateOne, hm, hcool, isRejectedRes]
    · intro hminf
      simp [validateOne, hminf, hcool, ht]
  · intro hexp
    have hcool : cooldownRejected cooldowns now d = false := by
      cases hl : cooldowns.lookup d.symbol with
      | none => simp [cooldownRejected, hl]
      | some t =>
          have := hexp t hl
          simp [cooldownRejected, hl, Nat.not_lt.mpr this]
    by_contra hne
    rw [Bool.not_eq_false] at hne
    rw [isCooldownRejection_imp hne] at hcool
    exact Bool.noConfusion hcool

/-- Evaluation of claim C3 at a concrete input: a LONG of size 100 on
BTCUSDT whose cooldown expires at t=1000 is rejected at now=500 with a
note stating the 500 remaining milliseconds. -/
theorem C3_cooldown_validation_witness :
    validateOne [] [("BTCUSDT", 1000)] 500
      { action := AiAction.LONG, symbol := "BTCUSDT", size := some 100,
        leverage := some 10, stopLoss := none, takeProfit := none,
        closePositionId := none } =
      ValidationResult.rejected
        (Note.rejectedCooldown AiAction.LONG "BTCUSDT" 500) :=
  ((C3_cooldown_validation [] [("BTCUSDT", 1000)] 500
      { action := AiAction.LONG, symbol := "BTCUSDT", size := some 100,
        leverage := some 10, stopLoss := none, takeProfit := none,
        closePositionId := none } rfl (by decide)).1 1000 rfl
      (by decide)).2 (by decide)

/-! ## Claim C4 -/

/-- Claim C4: requested leverage above the symbol's venue maximum
(default 25 for an unknown symbol) is reduced to that maximum with a
note; a decision is never rejected for exceeding the maximum (every
rejection comes from the minimum-size or cooldown guard); and the
effective leverage attached to any accepted decision never exceeds the
symbol's cap. -/
theorem C4_leverage_clamp :
    ∀ (limits : List (String × ℚ)) (cooldowns : List (String × ℕ)) (now : ℕ)
      (d : AiDecision),
      isDirectional d.action = true → d.symbol ≠ "" →
      (adjustedLeverage limits d ≤ maxLeverageFor limits d.symbol) ∧
      (limits.lookup d.symbol = none → maxLeverageFor limits d.symbol = 25) ∧
      (rawLeverage d > maxLeverageFor limits d.symbol →
        adjustedLeverage limits d = maxLeverageFor limits d.symbol ∧
        (minSizeRejected d = false → cooldownRejected cooldowns now d = false →
          validateOne limits cooldowns now d =
            ValidationResult.accepted (maxLeverageFor limits d.symbol)
              [Note.leverageAdjusted d.symbol (rawLeverage d)
                (maxLeverageFor limits d.symbol)])) ∧
      (∀ n, validateOne limits cooldowns now d = ValidationResult.rejected n →
        minSizeRejected d = true ∨ cooldownRejected cooldowns now d = true) ∧
      (∀ lev ns,
        validateOne limits cooldowns now d = ValidationResult.accepted lev ns →
        lev ≤ maxLeverageFor limits d.symbol) := by
  intro limits cooldowns now d hdir hsym
  refine ⟨?_, ?_, ?_, ?_, ?_⟩
  · by_cases hgt : rawLeverage d > maxLeverageFor limits d.symbol
    · simp [adjustedLeverage, hdir, hsym, hgt]
    · simp [adjustedLeverage, hdir, hsym, hgt]
      exact le_of_not_lt hgt
  · intro h
    simp [maxLeverageFor, h]
  · intro hgt
    constructor
    · simp [adjustedLeverage, hdir, hsym, hgt]
    · intro hminf hcoolf
      simp [validateOne, hminf, hcoolf, hdir, hsym, hgt]
  · intro n h
    by_cases hm : minSizeRejected d = true
    · exact Or.inl hm
    by_cases hc : cooldownRejected cooldowns now d = true
    · exact Or.inr hc
    exfalso
    rw [Bool.not_eq_true] at hm hc
    unfold validateOne at h
    rw [hm, hc] at h
    simp only [Bool.false_eq_true, if_false] at h
    split at h
    · exact ValidationResult.noConfusion h
    · exact ValidationResult.noConfusion h
  · intro lev ns h
    unfold validateOne at h
    split at h
    · exact ValidationResult.noConfusion h
    · split at h
      · exact ValidationResult.noConfusion h
      · split at h
        · injection h with h1 h2
          rw [← h1]
        · injection h with h1 h2
          rw [← h1]
          rename_i hcond
          simp [hdir, hsym] at hcond
          exact hcond

/-- Evaluation of claim C4 at a concrete input: requested 10x on a
symbol capped at 5x is accepted at 5x with an adjustment note. -/
theorem C4_leverage_clamp_witness :
    validateOne [("BTCUSDT", (5 : ℚ))] [] 0
      { action := AiAction.LONG, symbol := "BTCUSDT", size := some 100,
        leverage := some 10, stopLoss := none, takeProfit := none,
        closePositionId := none } =
      ValidationResult.accepted 5 [Note.leverageAdjusted "BTCUSDT" 10 5] := by
  have h := (C4_leverage_clamp [("BTCUSDT", (5 : ℚ))] [] 0
      { action := AiAction.LONG, symbol := "BTCUSDT", size := some 100,
        leverage := some 10, stopLoss := none, takeProfit := none,
        closePositionId := none } rfl (by decide)).2.2.1
      (by norm_num [rawLeverage, maxLeverageFor, List.lookup])
  exact (h.2 (by decide) (by decide)).trans (by norm_num [rawLeverage, maxLeverageFor, List.lookup])

/-! ## Claim C1 -/

/-- Dispatch: a directional decision with a found market, truthy size and
truthy symbol takes the open branch. -/
theorem liveExecuteOne_open {now : ℕ}
    {precisions : List (String × SymbolPrecisionInfo)} {markets : List Market}
    {origPortfolio : Portfolio} {st : ExecState} {d : AiDecision} {lev : ℚ}
    {oc : DecisionOutcome} {m : Market}
    (hm : markets.find? (fun mk => mk.symbol == d.symbol) = some m)
    (hguard : (isDirectional d.action && sizeTruthy d.size && (d.symbol != "")) = true) :
    liveExecuteOne now precisions markets origPortfolio st d lev oc =
      openBranch precisions d lev oc m st := by
  unfold liveExecuteOne
  rw [hm]
  simp [hguard]

/-- Claim C1: live-mode directional opens follow the staged fail-soft
sizing policy.  Balance below the minimum rejects the whole order with a
note and nothing else happens; a proposed size above the available
balance is clamped down to the balance with an adjustment note and the
order proceeds to execution at the clamped size (the re-check passes
because the balance is at least the minimum); an unclamped size that is
below the minimum is rejected by the re-check with a note. -/
theorem C1_live_sizing :
    ∀ (now : ℕ) (precisions : List (String × SymbolPrecisionInfo))
      (markets : List Market) (origPortfolio : Portfolio) (st : ExecState)
      (d : AiDecision) (lev : ℚ) (oc : DecisionOutcome) (m : Market) (s : ℚ),
      markets.find? (fun mk => mk.symbol == d.symbol) = some m →
      isDirectional d.action = true → d.size = some s → s ≠ 0 →
      d.symbol ≠ "" →
      ((st.portfolio.balance < MINIMUM_TRADE_SIZE_USD →
          liveExecuteOne now precisions markets origPortfolio st d lev oc =
            { st with notes := st.notes ++
                [Note.rejectedLowBalance d.action d.symbol st.portfolio.balance] }) ∧
       (MINIMUM_TRADE_SIZE_USD ≤ st.portfolio.balance →
          s > st.portfolio.balance →
          liveExecuteOne now precisions markets origPortfolio st d lev oc =
            openAfterSizing precisions d lev oc m
              { st with notes := st.notes ++
                  [Note.sizeAdjusted d.symbol s st.portfolio.balance] }
              st.portfolio.balance) ∧
       (MINIMUM_TRADE_SIZE_USD ≤ st.portfolio.balance →
          s ≤ st.portfolio.balance → s < MINIMUM_TRADE_SIZE_USD →
          liveExecuteOne now precisions markets origPortfolio st d lev oc =
            { st with notes := st.notes ++
                [Note.rejectedAdjustedSize d.action d.symbol s] })) := by
  intro now precisions markets origPortfolio st d lev oc m s hm hdir hsz hne hsym
  have hguard : (isDirectional d.action && sizeTruthy d.size && (d.symbol != "")) = true := by
    simp [hdir, hsz, sizeTruthy, hne, hsym]
  have hlive :=
    @liveExecuteOne_open now precisions markets origPortfolio st d lev oc m hm hguard
  refine ⟨?_, ?_, ?_⟩
  · intro hbal
    rw [hlive]
    simp [openBranch, hbal]
  · intro hbalge hgt
    rw [hlive]
    rw [openBranch]
    rw [if_neg (not_lt.mpr hbalge)]
    simp only [sizeVal_some hsz]
    rw [if_pos hgt, if_pos hgt, if_neg (not_lt.mpr hbalge)]
  · intro hbalge hle hlt
    rw [hlive]
    rw [openBranch]
    rw [if_neg (not_lt.mpr hbalge)]
    simp only [sizeVal_some hsz]
    rw [if_neg (not_lt.mpr hle), if_neg (not_lt.mpr hle), if_pos hlt]
    simp

/-- Evaluation of claim C1 at the spec's Scenario A: balance 30, proposed
size 100 → order rejected with a low-balance note, no clamp attempted. -/
theorem C1_live_sizing_witness :
    liveExecuteOne 0 [] [{ symbol := "BTCUSDT", price := 2 }]
      { balance := 30, pnl := 0, totalValue := 30, positions := [] }
      { portfolio := { balance := 30, pnl := 0, totalValue := 30, positions := [] },
        cooldowns := [], notes := [] }
      { action := AiAction.LONG, symbol := "BTCUSDT", size := some 100,
        leverage := some 10, stopLoss := none, takeProfit := none,
        closePositionId := none } 10
      { setLev := CallResult.ok, openOrder := CallResult.ok, slOk := true,
        tpOk := true, closeOrder := CallResult.ok } =
    { portfolio := { balance := 30, pnl := 0, totalValue := 30, positions := [] },
      cooldowns := [],
      notes := [Note.rejectedLowBalance AiAction.LONG "BTCUSDT" 30] } := by
  have h := ((C1_live_sizing 0 [] [{ symbol := "BTCUSDT", price := 2 }]
      { balance := 30, pnl := 0, totalValue := 30, positions := [] }
      { portfolio := { balance := 30, pnl := 0, totalValue := 30, positions := [] },
        cooldowns := [], notes := [] }
      { action := AiAction.LONG, symbol := "BTCUSDT", size := some 100,
        leverage := some 10, stopLoss := none, takeProfit := none,
        closePositionId := none } 10
      { setLev := CallResult.ok, openOrder := CallResult.ok, slOk := true,
        tpOk := true, closeOrder := CallResult.ok }
      { symbol := "BTCUSDT", price := 2 } 100 rfl rfl rfl (by norm_num)
      (by decide)).1 (by norm_num [MINIMUM_TRADE_SIZE_USD]))
  exact h.trans (by simp)

/-! ## Portfolio-preservation lemmas (shared by the close and frame claims) -/

theorem openAfterSizing_portfolio (precisions : List (String × SymbolPrecisionInfo))
    (d : AiDecision) (lev : ℚ) (oc : DecisionOutcome) (m : Market)
    (st : ExecState) (ts : ℚ) :
    (openAfterSizing precisions d lev oc m st ts).portfolio = st.portfolio := by
  unfold openAfterSizing
  cases oc.setLev with
  | err ro => rfl
  | ok =>
      simp only
      split
      · rfl
      · cases oc.openOrder with
        | err ro => rfl
        | ok => rfl

theorem openBranch_portfolio (precisions : List (String × SymbolPrecisionInfo))
    (d : AiDecision) (lev : ℚ) (oc : DecisionOutcome) (m : Market)
    (st : ExecState) :
    (openBranch precisions d lev oc m st).portfolio = st.portfolio := by
  unfold openBranch
  dsimp only
  repeat' split
  all_goals first | rfl | rw [openAfterSizing_portfolio]

theorem closeBranch_portfolio (now : ℕ)
    (precisions : List (String × SymbolPrecisionInfo)) (origPortfolio : Portfolio)
    (cpid : String) (oc : DecisionOutcome) (st : ExecState) :
    (closeBranch now precisions origPortfolio cpid oc st).portfolio = st.portfolio := by
  unfold closeBranch
  split
  · rfl
  · dsimp only
    split
    · cases oc.closeOrder with
      | ok => rfl
      | err ro => rfl
    · rfl

theorem closeStep_portfolio (now : ℕ)
    (precisions : List (String × SymbolPrecisionInfo)) (origPortfolio : Portfolio)
    (d : AiDecision) (oc : DecisionOutcome) (st : ExecState) :
    (closeStep now precisions origPortfolio d oc st).portfolio = st.portfolio := by
  unfold closeStep
  split
  · rw [closeBranch_portfolio]
  · rfl

theorem liveExecuteOne_portfolio (now : ℕ)
    (precisions : List (String × SymbolPrecisionInfo)) (markets : List Market)
    (origPortfolio : Portfolio) (st : ExecState) (d : AiDecision) (lev : ℚ)
    (oc : DecisionOutcome) :
    (liveExecuteOne now precisions markets origPortfolio st d lev oc).portfolio =
      st.portfolio := by
  unfold liveExecuteOne
  cases markets.find? (fun m => m.symbol == d.symbol) with
  | some m =>
      simp only
      split
      · rw [openBranch_portfolio]
      · rw [closeStep_portfolio]
  | none => rw [closeStep_portfolio]

theorem liveExecuteTurn_portfolio (now : ℕ)
    (precisions : List (String × SymbolPrecisionInfo)) (markets : List Market)
    (origPortfolio : Portfolio) (st : ExecState)
    (vds : List ((AiDecision × ℚ) × DecisionOutcome)) :
    (liveExecuteTurn now precisions markets origPortfolio st vds).portfolio =
      st.portfolio := by
  induction vds generalizing st with
  | nil => rfl
  | cons p ps ih =>
      unfold liveExecuteTurn at ih ⊢
      rw [List.foldl_cons, ih, liveExecuteOne_portfolio]

/-! ## Claim C5 -/

/-- Dispatch: a CLOSE decision never takes the open branch. -/
theorem liveExecuteOne_close {now : ℕ}
    {precisions : List (String × SymbolPrecisionInfo)} {markets : List Market}
    {origPortfolio : Portfolio} {st : ExecState} {d : AiDecision} {lev : ℚ}
    {oc : DecisionOutcome} (hclose : d.action = AiAction.CLOSE) :
    liveExecuteOne now precisions markets origPortfolio st d lev oc =
      closeStep now precisions origPortfolio d oc st := by
  have hdir : isDirectional d.action = false := by rw [hclose]; rfl
  unfold liveExecuteOne
  cases markets.find? (fun m => m.symbol == d.symbol) with
  | some m => simp [hdir]
  | none => rfl

/-- Claim C5, as stated, is false on the code: a CLOSE decision whose
target id does not resolve to any position performs no state mutation and
does not crash — but it records no note at all (`if (posToClose)` simply
falls through), while the claim says a benign note is recorded. -/
theorem C5_counterexample :
    let pos : Position :=
      { id := "p1", symbol := "ETHUSDT", type := OrderType.LONG,
        entryPrice := 200, size := 100, leverage := 2, pnl := 0 }
    let port : Portfolio :=
      { balance := 80, pnl := 0, totalValue := 180, positions := [pos] }
    let st : ExecState := { portfolio := port, cooldowns := [], notes := [] }
    let d : AiDecision :=
      { action := AiAction.CLOSE, symbol := "", size := none, leverage := none,
        stopLoss := none, takeProfit := none, closePositionId := some "ghost" }
    let oc : DecisionOutcome :=
      { setLev := CallResult.ok, openOrder := CallResult.ok, slOk := true,
        tpOk := true, closeOrder := CallResult.ok }
    liveExecuteOne 0 [] [] port st d 1 oc = st ∧ st.notes = [] :=
  ⟨rfl, rfl⟩

/-- Dispatch: a CLOSE with a present, non-empty target id reaches
`closeBranch` on that id. -/
theorem closeStep_some {now : ℕ}
    {precisions : List (String × SymbolPrecisionInfo)}
    {origPortfolio : Portfolio} {d : AiDecision} {oc : DecisionOutcome}
    {st : ExecState} {c : String} (hclose : d.action = AiAction.CLOSE)
    (hc : d.closePositionId = some c) (hce : c ≠ "") :
    closeStep now precisions origPortfolio d oc st =
      closeBranch now precisions origPortfolio c oc st := by
  unfold closeStep
  rw [if_pos]
  · rw [hc]
    rfl
  · rw [hclose, hc]
    have h1 : (AiAction.CLOSE == AiAction.CLOSE) = true := rfl
    rw [h1]
    simp [cpidTruthy, hce]

/-- Claim C5 amended: a CLOSE whose target id is missing or resolves to
no position in the turn's portfolio is a silent no-op — no state
mutation, no crash, and also no note; the venue-side "already gone"
rejection of the reduce-only close order likewise mutates no state but
does record a benign note. -/
theorem C5_close_missing_position :
    ∀ (now : ℕ) (precisions : List (String × SymbolPrecisionInfo))
      (markets : List Market) (origPortfolio : Portfolio) (st : ExecState)
      (d : AiDecision) (lev : ℚ) (oc : DecisionOutcome),
      d.action = AiAction.CLOSE →
      ((d.closePositionId = none →
          liveExecuteOne now precisions markets origPortfolio st d lev oc = st) ∧
       (∀ c, d.closePositionId = some c →
          origPortfolio.positions.find? (fun p => p.id == c) = none →
          liveExecuteOne now precisions markets origPortfolio st d lev oc = st) ∧
       (∀ c pos, d.closePositionId = some c → c ≠ "" →
          origPortfolio.positions.find? (fun p => p.id == c) = some pos →
          getAdjustedQuantity precisions pos.symbol
            |(pos.size * pos.leverage) / pos.entryPrice| > 0 →
          oc.closeOrder = CallResult.err true →
          liveExecuteOne now precisions markets origPortfolio st d lev oc =
            { st with notes := st.notes ++ [Note.closeAlreadyGone c] })) := by
  intro now precisions markets origPortfolio st d lev oc hclose
  have hstep :=
    @liveExecuteOne_close now precisions markets origPortfolio st d lev oc hclose
  refine ⟨?_, ?_, ?_⟩
  · intro hnone
    rw [hstep]
    simp [closeStep, cpidTruthy, hnone]
  · intro c hc hfind
    rw [hstep]
    by_cases hce : c = ""
    · subst hce
      simp [closeStep, cpidTruthy, hc]
    · rw [closeStep_some hclose hc hce]
      unfold closeBranch
      rw [hfind]
  · intro c pos hc hce hfind hq hord
    rw [hstep, closeStep_some hclose hc hce]
    unfold closeBranch
    rw [hfind]
    dsimp only
    rw [if_pos hq, hord]
    simp [catchNote]

/-- Evaluation of claim C5 at a concrete input: the venue rejects the
reduce-only close of an existing position, leaving the state unchanged
except for the benign already-gone note. -/
theorem C5_close_missing_position_witness :
    let pos : Position :=
      { id := "p1", symbol := "ETHUSDT", type := OrderType.LONG,
        entryPrice := 200, size := 100, leverage := 2, pnl := 0 }
    let port : Portfolio :=
      { balance := 80, pnl := 0, totalValue := 180, positions := [pos] }
    let st : ExecState := { portfolio := port, cooldowns := [], notes := [] }
    let d : AiDecision :=
      { action := AiAction.CLOSE, symbol := "", size := none, leverage := none,
        stopLoss := none, takeProfit := none, closePositionId := some "p1" }
    let oc : DecisionOutcome :=
      { setLev := CallResult.ok, openOrder := CallResult.ok, slOk := true,
        tpOk := true, closeOrder := CallResult.err true }
    liveExecuteOne 0 [] [] port st d 1 oc =
      { st with notes := [Note.closeAlreadyGone "p1"] } := by
  intro pos port st d oc
  have hq : getAdjustedQuantity [] "ETHUSDT" |(100 : ℚ) * 2 / 200| > 0 := by
    norm_num [getAdjustedQuantity, quantityPrecisionFor, List.lookup]
    decide
  have h := ((C5_close_missing_position 0 [] [] port st d 1 oc rfl).2.2 "p1" pos
    rfl (by decide) rfl hq rfl)
  exact h.trans (by simp)

/-! ## Claim C10 -/

/-- Claim C10: live execution never mutates the locally recorded
portfolio, so every decision in a turn sees the available balance the
agent had when the turn started, and a full live turn hands the original
portfolio back unchanged. -/
theorem C10_balance_frame :
    ∀ (now : ℕ) (precisions : List (String × SymbolPrecisionInfo))
      (markets : List Market) (origPortfolio : Portfolio) (st : ExecState)
      (vds : List ((AiDecision × ℚ) × DecisionOutcome)),
      (liveExecuteTurn now precisions markets origPortfolio st vds).portfolio =
        st.portfolio ∧
      (∀ l1 l2, vds = l1 ++ l2 →
        (liveExecuteTurn now precisions markets origPortfolio st l1).portfolio.balance =
          st.portfolio.balance) ∧
      (∀ (limits : List (String × ℚ)) (bot : BotState) (prompt : String)
          (decisions : List AiDecision) (ocs : List DecisionOutcome),
        (runLiveTurn limits precisions markets now bot prompt decisions ocs).portfolio =
          bot.portfolio) := by
  intro now precisions markets origPortfolio st vds
  refine ⟨liveExecuteTurn_portfolio now precisions markets origPortfolio st vds, ?_, ?_⟩
  · intro l1 l2 hsplit
    rw [liveExecuteTurn_portfolio]
  · intro limits bot prompt decisions ocs
    unfold runLiveTurn
    dsimp only
    rw [liveExecuteTurn_portfolio]

/-- Evaluation of claim C10 at a concrete input: after executing one
accepted LONG open of size 100 with balance 80, the locally recorded
balance is still 80. -/
theorem C10_balance_frame_witness :
    let port : Portfolio := { balance := 80, pnl := 0, totalValue := 80, positions := [] }
    let st : ExecState := { portfolio := port, cooldowns := [], notes := [] }
    let d : AiDecision :=
      { action := AiAction.LONG, symbol := "BTCUSDT", size := some 100,
        leverage := some 10, stopLoss := none, takeProfit := none,
        closePositionId := none }
    let oc : DecisionOutcome :=
      { setLev := CallResult.ok, openOrder := CallResult.ok, slOk := true,
        tpOk := true, closeOrder := CallResult.ok }
    (liveExecuteTurn 0 [] [{ symbol := "BTCUSDT", price := 2 }] port st
      [((d, 10), oc)]).portfolio.balance = 80 := by
  intro port st d oc
  have h := (C10_balance_frame 0 [] [{ symbol := "BTCUSDT", price := 2 }] port st
    [((d, 10), oc)]).2.1 [((d, 10), oc)] [] rfl
  exact h.trans rfl

/-! ## Claim C6 -/

/-- Claim C6: for a non-negative raw quantity, `getAdjustedQuantity`
truncates toward zero to the symbol quantity precision (default 3 for an
unknown symbol): the result never exceeds the raw quantity, it is a
non-negative integer multiple of `10^-precision`, and it is the greatest
such multiple not exceeding the raw quantity. -/
theorem C6_quantity_truncation :
    ∀ (precisions : List (String × SymbolPrecisionInfo)) (symbol : String)
      (q : ℚ), 0 ≤ q →
      getAdjustedQuantity precisions symbol q ≤ q ∧
      (∃ n : ℤ, 0 ≤ n ∧ getAdjustedQuantity precisions symbol q =
        (n : ℚ) / 10 ^ quantityPrecisionFor precisions symbol) ∧
      (∀ m : ℤ,
        (m : ℚ) / 10 ^ quantityPrecisionFor precisions symbol ≤ q →
        (m : ℚ) / 10 ^ quantityPrecisionFor precisions symbol ≤
          getAdjustedQuantity precisions symbol q) ∧
      (precisions.lookup symbol = none →
        quantityPrecisionFor precisions symbol = 3) := by
  intro precisions symbol q hq
  have hf : (0 : ℚ) < 10 ^ quantityPrecisionFor precisions symbol :=
    pow_pos (by norm_num) _
  refine ⟨?_, ?_, ?_, ?_⟩
  · unfold getAdjustedQuantity
    rw [div_le_iff₀ hf]
    exact Rat.le_floor.mp (le_refl _)
  · refine ⟨(q * 10 ^ quantityPrecisionFor precisions symbol).floor, ?_, rfl⟩
    exact Rat.le_floor.mpr (by exact_mod_cast mul_nonneg hq (le_of_lt hf))
  · intro m hm
    have hmle : m ≤ (q * 10 ^ quantityPrecisionFor precisions symbol).floor :=
      Rat.le_floor.mpr ((div_le_iff₀ hf).mp hm)
    unfold getAdjustedQuantity
    exact (div_le_div_iff_of_pos_right hf).mpr (by exact_mod_cast hmle)
  · intro h
    simp [quantityPrecisionFor, h]

/-- Evaluation of claim C6 at a concrete input: truncating 5/4 for an
unknown symbol never rounds above 5/4. -/
theorem C6_quantity_truncation_witness :
    getAdjustedQuantity [] "BTCUSDT" (5 / 4) ≤ 5 / 4 :=
  (C6_quantity_truncation [] "BTCUSDT" (5 / 4) (by norm_num)).1

/-! ## Claim C7 -/

theorem refreshPositions_foldl (md : List Market) (ps : List Position)
    (acc : List Position × ℚ × ℚ) :
    ps.foldl
      (fun acc pos =>
        let pnl := positionPnl md pos
        (acc.1 ++ [{ pos with pnl := pnl }], acc.2.1 + pnl, acc.2.2 + pos.size))
      acc =
    (acc.1 ++ ps.map (fun pos => { pos with pnl := positionPnl md pos }),
     acc.2.1 + (ps.map (positionPnl md)).sum,
     acc.2.2 + (ps.map Position.size).sum) := by
  induction ps generalizing acc with
  | nil => simp
  | cons p ps ih =>
      simp only [List.foldl_cons, List.map_cons, List.sum_cons]
      rw [ih]
      simp [add_assoc]

/-- Closed form of the single accumulating pass of the paper refresh. -/
theorem refreshPositions_closed (md : List Market) (ps : List Position) :
    refreshPositions md ps =
      (ps.map (fun pos => { pos with pnl := positionPnl md pos }),
       (ps.map (positionPnl md)).sum, (ps.map Position.size).sum) := by
  unfold refreshPositions
  rw [refreshPositions_foldl]
  simp

/-- Claim C7: a paper refresh tick recomputes each position's unrealized
PnL as `(currentPrice − entryPrice) · (size·leverage/entryPrice) · ±1`
from the latest snapshot, contributes zero for a symbol absent from the
snapshot, and recomputes total value as
`balance + Σ sizes + Σ unrealized PnL`, leaving the balance unchanged. -/
theorem C7_paper_refresh :
    ∀ (marketData : List Market) (p : Portfolio) (now : ℕ) (bot : BotState),
      (refreshPaper marketData p).totalValue =
        p.balance + (p.positions.map Position.size).sum +
          (p.positions.map (positionPnl marketData)).sum ∧
      (refreshPaper marketData p).pnl =
        (p.positions.map (positionPnl marketData)).sum ∧
      (refreshPaper marketData p).balance = p.balance ∧
      (refreshPaper marketData p).positions =
        p.positions.map (fun pos => { pos with pnl := positionPnl marketData pos }) ∧
      (∀ (pos : Position) (m : Market),
        marketData.find? (fun mk => mk.symbol == pos.symbol) = some m →
        positionPnl marketData pos =
          (m.price - pos.entryPrice) * ((pos.size * pos.leverage) / pos.entryPrice) *
            (if pos.type == OrderType.LONG then 1 else -1)) ∧
      (∀ pos : Position,
        marketData.find? (fun mk => mk.symbol == pos.symbol) = none →
        positionPnl marketData pos = 0) ∧
      (updatePaperBot marketData now bot).portfolio =
        refreshPaper marketData bot.portfolio := by
  intro md p now bot
  refine ⟨?_, ?_, ?_, ?_, ?_, ?_, rfl⟩
  · unfold refreshPaper
    rw [refreshPositions_closed]
  · unfold refreshPaper
    rw [refreshPositions_closed]
  · unfold refreshPaper
    rw [refreshPositions_closed]
  · unfold refreshPaper
    rw [refreshPositions_closed]
  · intro pos m hm
    unfold positionPnl
    rw [hm]
    rfl
  · intro pos hnone
    unfold positionPnl
    rw [hnone]
    simp

/-- Evaluation of claim C7 at a concrete input: a position whose symbol
is missing from the snapshot contributes zero unrealized PnL. -/
theorem C7_paper_refresh_witness :
    let pos : Position :=
      { id := "p1", symbol := "ETHUSDT", type := OrderType.LONG,
        entryPrice := 200, size := 100, leverage := 2, pnl := 7 }
    let bot : BotState :=
      { id := "b1", isPaused := false,
        portfolio := { balance := 80, pnl := 0, totalValue := 80, positions := [] },
        orders := [], botLogs := [], valueHistory := [], realizedPnl := 0,
        symbolCooldowns := [] }
    positionPnl [] pos = 0 := by
  intro pos bot
  exact (C7_paper_refresh [] bot.portfolio 0 bot).2.2.2.2.2.1 pos rfl

/-! ## Claim C8 -/

theorem lookup_setEntry_self {α : Type} (l : List (String × α)) (k : String)
    (v : α) : (setEntry l k v).lookup k = some v := by
  unfold setEntry
  simp [List.lookup]

/-- Claim C8: the nominal initial-balance figure is recorded at the
initial sync and no later refresh sync — whatever venue balance it
fetched — ever changes it; more generally, any existing entry survives a
refresh sync unchanged. -/
theorem C8_initial_balance_once :
    ∀ (ref : List (String × ℚ)) (botId : String) (liveInit : ℚ),
      (initialSyncRef ref botId liveInit).lookup botId = some liveInit ∧
      (∀ balances : List ℚ,
        (balances.foldl (fun r b => refreshSyncRef liveInit b r botId)
          (initialSyncRef ref botId liveInit)).lookup botId = some liveInit) ∧
      (∀ (r : List (String × ℚ)) (v b : ℚ), r.lookup botId = some v →
        (refreshSyncRef liveInit b r botId).lookup botId = some v) := by
  intro ref botId liveInit
  have hkeep : ∀ (r : List (String × ℚ)) (v b : ℚ), r.lookup botId = some v →
      (refreshSyncRef liveInit b r botId).lookup botId = some v := by
    intro r v b h
    unfold refreshSyncRef
    rw [h]
    exact h
  refine ⟨lookup_setEntry_self ref botId liveInit, ?_, hkeep⟩
  intro balances
  have hbase : (initialSyncRef ref botId liveInit).lookup botId = some liveInit :=
    lookup_setEntry_self ref botId liveInit
  induction balances generalizing ref with
  | nil => exact hbase
  | cons b bs ih =>
      simp only [List.foldl_cons]
      have hr : refreshSyncRef liveInit b (initialSyncRef ref botId liveInit) botId =
          initialSyncRef ref botId liveInit := by
        unfold refreshSyncRef
        rw [hbase]
        rfl
      rw [hr]
      exact ih ref hbase

/-- Evaluation of claim C8 at a concrete input: an entry of 950 for
`bot1` survives a refresh sync that fetched a venue balance of 1000. -/
theorem C8_initial_balance_once_witness :
    (refreshSyncRef 950 1000 [("bot1", (950 : ℚ))] "bot1").lookup "bot1" =
      some 950 :=
  (C8_initial_balance_once [] "bot1" 950).2.2 [("bot1", (950 : ℚ))] 950 1000 rfl

/-! ## Claim C9 -/

set_option maxRecDepth 8192 in
/-- Claim C9 bounds: the turn log is bounded at the 50 most recent
entries, with exactly one new entry per decision turn and the oldest
evicted past the bound, and the value history is bounded at the 300 most
recent points; decision turns leave the value history untouched and
refresh ticks leave the turn log untouched. -/
theorem C9_bounded_buffers :
    ∀ (limits : List (String × ℚ)) (precisions : List (String × SymbolPrecisionInfo))
      (markets : List Market) (now : ℕ) (bot : BotState) (prompt : String)
      (decisions : List AiDecision) (ocs : List DecisionOutcome)
      (marketData : List Market) (venuePortfolio : Portfolio)
      (venueOrders : List Order),
      ((runLiveTurn limits precisions markets now bot prompt decisions ocs).botLogs.length ≤ 50 ∧
       (∃ l, (runLiveTurn limits precisions markets now bot prompt decisions ocs).botLogs =
          l :: bot.botLogs.take 49) ∧
       (runLiveTurn limits precisions markets now bot prompt decisions ocs).valueHistory =
         bot.valueHistory) ∧
      ((updatePaperBot marketData now bot).valueHistory.length ≤ 300 ∧
       (updatePaperBot marketData now bot).botLogs = bot.botLogs) ∧
      ((updateLiveBot venuePortfolio venueOrders now bot).valueHistory.length ≤ 300 ∧
       (updateLiveBot venuePortfolio venueOrders now bot).botLogs = bot.botLogs) ∧
      (∀ (logs : List BotLog) (l : BotLog),
        (appendBotLog logs l).length ≤ 50 ∧ appendBotLog logs l = l :: logs.take 49) ∧
      (∀ (h : List ValueHistoryPoint) (pt : ValueHistoryPoint),
        (appendValueHistory h pt).length ≤ 300 ∧
        (∃ k, appendValueHistory h pt = (h ++ [pt]).drop k) ∧
        pt ∈ appendValueHistory h pt) := by
  have hlog : ∀ (logs : List BotLog) (l : BotLog),
      (appendBotLog logs l).length ≤ 50 ∧ appendBotLog logs l = l :: logs.take 49 := by
    intro logs l
    constructor
    · simp only [appendBotLog, List.length_take]
      exact min_le_left _ _
    · rfl
  have hhist : ∀ (h : List ValueHistoryPoint) (pt : ValueHistoryPoint),
      (appendValueHistory h pt).length ≤ 300 ∧
      (∃ k, appendValueHistory h pt = (h ++ [pt]).drop k) ∧
      pt ∈ appendValueHistory h pt := by
    intro h pt
    refine ⟨?_, ⟨(h.length + 1) - 300, rfl⟩, ?_⟩
    · simp only [appendValueHistory, List.length_drop, List.length_append,
        List.length_singleton]
      omega
    · unfold appendValueHistory
      rw [List.drop_append_of_le_length (by omega)]
      exact List.mem_append_right _ (by simp)
  intro limits precisions markets now bot prompt decisions ocs marketData
    venuePortfolio venueOrders
  refine ⟨⟨?_, ?_, ?_⟩, ⟨?_, ?_⟩, ⟨?_, ?_⟩, hlog, hhist⟩
  · unfold runLiveTurn
    dsimp only
    exact (hlog bot.botLogs _).1
  · unfold runLiveTurn
    dsimp only
    exact ⟨_, (hlog bot.botLogs _).2⟩
  · unfold runLiveTurn
    dsimp only
  · unfold updatePaperBot
    dsimp only
    exact (hhist bot.valueHistory _).1
  · unfold updatePaperBot
    dsimp only
  · unfold updateLiveBot
    dsimp only
    exact (hhist bot.valueHistory _).1
  · unfold updateLiveBot
    dsimp only

end TradingBot
